import Mathlib

/-!
Verification of the student-portal import/rollback/pivot core (`app.py`).

The development shallowly embeds the data model and the operations of the
source file: tables loaded from a spreadsheet become association-list rows,
the sqlite tables become lists of records inside a `DB` structure, and the
importers and the rollback routine become Lean functions over `DB`.
Python floats are modelled as exact rationals; `int(float(s))` is modelled
by a digit-level parser that accepts plain decimal literals (scientific
notation, `inf`, `nan` and underscore separators are treated as parse
failures, which the importers turn into the same error/None outcomes the
source produces for them).  Python `str.strip` / `str.lower` are modelled
on ASCII characters.
-/

/- ---------------- character/string primitives ---------------- -/

/-- The apostrophe character, used inside string constants of the source. -/
def aposChar : Char := Char.ofNat 39

def apos : String := aposChar.toString

/-- ASCII whitespace, the characters `str.strip()` removes from the inputs
the importers see. -/
def isWsChar (c : Char) : Bool :=
  c = ' ' ∨ c = Char.ofNat 9 ∨ c = Char.ofNat 10 ∨ c = Char.ofNat 11 ∨
    c = Char.ofNat 12 ∨ c = Char.ofNat 13

def stripChars (l : List Char) : List Char :=
  ((l.dropWhile isWsChar).reverse.dropWhile isWsChar).reverse

/-- Model of Python `str.strip()`. -/
def pyStrip (s : String) : String := String.mk (stripChars s.data)

def lowerChar (c : Char) : Char :=
  if 65 ≤ c.toNat ∧ c.toNat ≤ 90 then Char.ofNat (c.toNat + 32) else c

/-- Model of Python `str.lower()` (ASCII range). -/
def pyLower (s : String) : String := String.mk (s.data.map lowerChar)

/-- Code-point lexicographic comparison of character lists; this is the
order Python string comparison and the sqlite BINARY collation use. -/
def charListLe : List Char → List Char → Bool
  | [], _ => true
  | _ :: _, [] => false
  | a :: as, b :: bs =>
      if a < b then true
      else if b < a then false
      else charListLe as bs

def strLe (a b : String) : Bool := charListLe a.data b.data

def sLe (a b : String) : Prop := strLe a b = true

def sLt (a b : String) : Prop := sLe a b ∧ a ≠ b

instance sLeDec : DecidableRel sLe := fun a b => instDecidableEqBool (strLe a b) true

instance sLtDec : DecidableRel sLt := fun _ _ => instDecidableAnd

/- ---------------- numeric coercion (Row Coercer) ---------------- -/

def digitsVal (l : List Char) : Nat := l.foldl (fun n c => 10 * n + (c.toNat - 48)) 0

/-- Split a character list at every dot. -/
def splitDotAux : List Char → List Char → List (List Char)
  | [], cur => [cur.reverse]
  | c :: cs, cur =>
      if c = '.' then cur.reverse :: splitDotAux cs [] else splitDotAux cs (c :: cur)

/-- Model of Python `int(float(s))` on plain decimal literals:
optional sign, digits with an optional fractional part; `int` truncates
toward zero, so the result is the signed integer part.  Any other input is
a parse failure (`none`), matching `float(...)`/`int(...)` raising. -/
def pyIntFloat? (s : String) : Option Int :=
  let l := stripChars s.data
  let sgn : Int := match l with
    | c :: _ => if c = '-' then -1 else 1
    | [] => 1
  let body : List Char := match l with
    | c :: rest => if c = '-' ∨ c = '+' then rest else l
    | [] => l
  match splitDotAux body [] with
  | [d] =>
      if d ≠ [] ∧ d.all Char.isDigit then some (sgn * (digitsVal d : Int)) else none
  | [d, f] =>
      if (d ≠ [] ∨ f ≠ []) ∧ d.all Char.isDigit ∧ f.all Char.isDigit then
        some (sgn * (digitsVal d : Int))
      else none
  | _ => none

/-- The `int(float(x)) if str(x).strip() else 0` pattern used for
attended/total/max_marks/marks_obtained; `none` models the uncaught
`ValueError` that aborts the import. -/
def pyCount (s : String) : Option Int :=
  if pyStrip s = "" then some 0 else pyIntFloat? s

/-- The guarded nullable-integer pattern used for semester/credits:
`sr = str(x).strip(); if sr and sr.lower() != "nan": try int(float(sr))
except: None`.  It never raises. -/
def pyNullable (s : String) : Option Int :=
  let sr := pyStrip s
  if sr ≠ "" ∧ pyLower sr ≠ "nan" then pyIntFloat? sr else none

/- ---------------- tables and column normalization ---------------- -/

/-- A raw cell: `none` is a pandas NaN (a missing cell), `some s` holds the
`str()` rendering of the cell value. -/
abbrev Cell := Option String

/-- A loaded row: association list from column name to raw cell. -/
abbrev Row := List (String × Cell)

def lookupCell (r : Row) (c : String) : Cell := (r.lookup c).join

structure Table where
  cols : List String
  rows : List Row
deriving DecidableEq, Repr

/-- The fixed alias table of `normalize_columns`, in source order. -/
def aliasPairs : List (String × String) :=
  [("roll", "roll_no"), ("roll no", "roll_no"), ("rollno", "roll_no"),
   ("rollnumber", "roll_no"), ("roll_no.", "roll_no"),
   ("student name", "name"), ("student", "name"), ("name of student", "name"),
   ("student email", "email"), ("mail", "email"), ("e-mail", "email"),
   ("student phone number", "phone"), ("phone number", "phone"),
   ("mobile", "phone"), ("student phone", "phone"), ("contact", "phone"),
   ("father name", "father_name"), ("father" ++ apos ++ "s name", "father_name"),
   ("guardian name", "father_name"),
   ("father phone number", "father_phone"), ("father mobile", "father_phone"),
   ("guardian phone", "father_phone"),
   ("sem", "semester"), ("sub", "subject"), ("subject name", "subject"),
   ("max", "max_marks"), ("maxmarks", "max_marks"),
   ("marks", "marks_obtained"), ("obtained", "marks_obtained")]

/-- Model of `df[v] = df.pop(k)`: drop column `k`, its data reappears under `v`. -/
def renameCol (k v : String) (r : Row) : Row :=
  r.map (fun p => if p.1 = k then (v, p.2) else p)

def applyAlias (t : Table) (kv : String × String) : Table :=
  if t.cols.contains kv.1 ∧ ¬t.cols.contains kv.2 then
    { cols := t.cols.filter (fun c => c ≠ kv.1) ++ [kv.2],
      rows := t.rows.map (renameCol kv.1 kv.2) }
  else t

/-- The column normalizer: strip/lowercase every header, then apply each alias
whose target is not already a column. -/
def normalize_columns (t : Table) : Table :=
  let t1 : Table :=
    { cols := t.cols.map (fun c => pyLower (pyStrip c)),
      rows := t.rows.map (fun r => r.map (fun p => (pyLower (pyStrip p.1), p.2))) }
  aliasPairs.foldl applyAlias t1

/- ---------------- the relational store ---------------- -/

structure Student where
  roll_no : String
  name : String
  email : Option String
  phone : Option String
  father_name : Option String
  father_phone : Option String
  semester : Option Int
deriving DecidableEq, Repr

structure AttRow where
  roll_no : String
  subject : String
  attended : Int
  total : Int
  semester : Option Int
  source_upload_id : Option Nat
deriving DecidableEq, Repr

structure MarkRow where
  roll_no : String
  exam : String
  subject : String
  max_marks : Int
  marks_obtained : Int
  credits : Option Int
  semester : Option Int
  source_upload_id : Option Nat
deriving DecidableEq, Repr

structure UploadRow where
  id : Nat
  filename : String
  upload_type : String
  row_count : Nat
  uploader_username : String
deriving DecidableEq, Repr

structure MapRow where
  upload_id : Nat
  roll_no : String
  created_new : Bool
deriving DecidableEq, Repr

structure RemarkRow where
  roll_no : String
  remark_text : String
  author_username : String
deriving DecidableEq, Repr

/-- The six tables of the schema plus the AUTOINCREMENT counter of
`uploads`.  `created_at` timestamps are wall-clock input and are omitted. -/
structure DB where
  students : List Student
  attendance : List AttRow
  marks : List MarkRow
  uploads : List UploadRow
  upload_students_map : List MapRow
  remarks : List RemarkRow
  next_upload_id : Nat
deriving DecidableEq, Repr

def emptyDB : DB :=
  { students := [], attendance := [], marks := [], uploads := [],
    upload_students_map := [], remarks := [], next_upload_id := 1 }

/- ---------------- upload ledger ---------------- -/

def create_upload_record (db : DB) (filename upload_type actor : String) : DB × Nat :=
  ({ db with
      uploads := db.uploads ++
        [{ id := db.next_upload_id, filename := filename, upload_type := upload_type,
           row_count := 0, uploader_username := actor }],
      next_upload_id := db.next_upload_id + 1 },
   db.next_upload_id)

def bump_rowcount (db : DB) (uid n : Nat) : DB :=
  { db with
      uploads := db.uploads.map
        (fun u => if u.id = uid then { u with row_count := u.row_count + n } else u) }

/- ---------------- Students import ---------------- -/

/-- Cell access in the Students importer: `fillna("")` then `str(...)`. -/
def cellS (r : Row) (c : String) : String := (lookupCell r c).getD ""

def optStr (s : String) : Option String := if s = "" then none else some s

/-- The per-row coercion of the Students importer. -/
def studentOfRow (r : Row) : Student :=
  { roll_no := pyStrip (cellS r "roll_no"),
    name := pyStrip (cellS r "name"),
    email := optStr (pyStrip (cellS r "email")),
    phone := optStr (pyStrip (cellS r "phone")),
    father_name := optStr (pyStrip (cellS r "father_name")),
    father_phone := optStr (pyStrip (cellS r "father_phone")),
    semester := pyNullable (cellS r "semester") }

/-- The `INSERT ... ON CONFLICT(roll_no) DO UPDATE SET` with every field taken
from the excluded (new) row: full replace. -/
def upsertStudent (s : Student) (l : List Student) : List Student :=
  if l.any (fun x => x.roll_no = s.roll_no) then
    l.map (fun x => if x.roll_no = s.roll_no then s else x)
  else l ++ [s]

def studentsStep (uid : Nat) (st : List Student × List MapRow × Nat) (r : Row) :
    List Student × List MapRow × Nat :=
  if pyStrip (cellS r "roll_no") = "" then st
  else
    (upsertStudent (studentOfRow r) st.1,
     st.2.1 ++ [{ upload_id := uid, roll_no := pyStrip (cellS r "roll_no"),
                  created_new := !(st.1.any (fun x =>
                    x.roll_no = pyStrip (cellS r "roll_no"))) }],
     st.2.2 + 1)

def requiredStudentCols : List String :=
  ["roll_no", "name", "email", "phone", "father_name", "father_phone", "semester"]

def missingColMsg (kind col : String) : String :=
  kind ++ ": missing column " ++ apos ++ col ++ apos

def import_students (t : Table) (uid : Nat) (db : DB) : Except String DB :=
  match requiredStudentCols.find? (fun c => ¬(normalize_columns t).cols.contains c) with
  | some c => .error (missingColMsg "Students" c)
  | none =>
      let res := (normalize_columns t).rows.foldl (studentsStep uid)
        (db.students, db.upload_students_map, 0)
      .ok (bump_rowcount
        { db with students := res.1, upload_students_map := res.2.1 } uid res.2.2)

/- ---------------- Attendance import ---------------- -/

/-- Cell access in the Attendance/Marks importers: `fillna(0)` then
`str(...)`, so a NaN cell reads back as `"0"`. -/
def cellA (r : Row) (c : String) : String := (lookupCell r c).getD "0"

/-- The `ON CONFLICT(roll_no,subject) DO UPDATE`: attended/total/source are
overwritten, semester is `COALESCE(excluded.semester, attendance.semester)`. -/
def upsertAtt (a : AttRow) (l : List AttRow) : List AttRow :=
  if l.any (fun x => x.roll_no = a.roll_no ∧ x.subject = a.subject) then
    l.map (fun x =>
      if x.roll_no = a.roll_no ∧ x.subject = a.subject then
        { x with attended := a.attended, total := a.total,
                 semester := match a.semester with
                   | some v => some v
                   | none => x.semester,
                 source_upload_id := a.source_upload_id }
      else x)
  else l ++ [a]

def fkErr : String := "FOREIGN KEY constraint failed"

def floatErr : String := "could not convert string to float"

def applyAttRows (uid : Nat) (hasSem : Bool) (students : List Student) :
    List Row → List AttRow → Nat → Except String (List AttRow × Nat)
  | [], acc, n => .ok (acc, n)
  | r :: rs, acc, n =>
      if pyStrip (cellA r "roll_no") = "" ∨ pyStrip (cellA r "subject") = "" then
        applyAttRows uid hasSem students rs acc n
      else
        match pyCount (cellA r "attended"), pyCount (cellA r "total") with
        | some att, some tot =>
            if students.any (fun s => s.roll_no = pyStrip (cellA r "roll_no")) then
              applyAttRows uid hasSem students rs
                (upsertAtt
                  { roll_no := pyStrip (cellA r "roll_no"),
                    subject := pyStrip (cellA r "subject"),
                    attended := att, total := tot,
                    semester := if hasSem then pyNullable (cellA r "semester") else none,
                    source_upload_id := some uid } acc)
                (n + 1)
            else .error fkErr
        | _, _ => .error floatErr

def requiredAttCols : List String := ["roll_no", "subject", "attended", "total"]

def import_attendance (t : Table) (uid : Nat) (db : DB) : Except String DB :=
  match requiredAttCols.find? (fun c => ¬(normalize_columns t).cols.contains c) with
  | some c => .error (missingColMsg "Attendance" c)
  | none =>
      match applyAttRows uid ((normalize_columns t).cols.contains "semester") db.students
          (normalize_columns t).rows db.attendance 0 with
      | .error e => .error e
      | .ok (att, n) => .ok (bump_rowcount { db with attendance := att } uid n)

/- ---------------- Marks import ---------------- -/

/-- The `ON CONFLICT(roll_no,exam,subject) DO UPDATE`: max/obtained/source are
overwritten, credits and semester are COALESCEd with the stored value. -/
def upsertMark (m : MarkRow) (l : List MarkRow) : List MarkRow :=
  if l.any (fun x => x.roll_no = m.roll_no ∧ x.exam = m.exam ∧ x.subject = m.subject) then
    l.map (fun x =>
      if x.roll_no = m.roll_no ∧ x.exam = m.exam ∧ x.subject = m.subject then
        { x with max_marks := m.max_marks, marks_obtained := m.marks_obtained,
                 credits := match m.credits with
                   | some v => some v
                   | none => x.credits,
                 semester := match m.semester with
                   | some v => some v
                   | none => x.semester,
                 source_upload_id := m.source_upload_id }
      else x)
  else l ++ [m]

def applyMarkRows (uid : Nat) (hasCred hasSem : Bool) (students : List Student) :
    List Row → List MarkRow → Nat → Except String (List MarkRow × Nat)
  | [], acc, n => .ok (acc, n)
  | r :: rs, acc, n =>
      if pyStrip (cellA r "roll_no") = "" ∨ pyStrip (cellA r "exam") = "" ∨
          pyStrip (cellA r "subject") = "" then
        applyMarkRows uid hasCred hasSem students rs acc n
      else
        match pyCount (cellA r "max_marks"), pyCount (cellA r "marks_obtained") with
        | some maxm, some got =>
            if students.any (fun s => s.roll_no = pyStrip (cellA r "roll_no")) then
              applyMarkRows uid hasCred hasSem students rs
                (upsertMark
                  { roll_no := pyStrip (cellA r "roll_no"),
                    exam := pyStrip (cellA r "exam"),
                    subject := pyStrip (cellA r "subject"),
                    max_marks := maxm, marks_obtained := got,
                    credits := if hasCred then pyNullable (cellA r "credits") else none,
                    semester := if hasSem then pyNullable (cellA r "semester") else none,
                    source_upload_id := some uid } acc)
                (n + 1)
            else .error fkErr
        | _, _ => .error floatErr

def requiredMarkCols : List String :=
  ["roll_no", "exam", "subject", "max_marks", "marks_obtained"]

def import_marks (t : Table) (uid : Nat) (db : DB) : Except String DB :=
  match requiredMarkCols.find? (fun c => ¬(normalize_columns t).cols.contains c) with
  | some c => .error (missingColMsg "Marks" c)
  | none =>
      match applyMarkRows uid ((normalize_columns t).cols.contains "credits")
          ((normalize_columns t).cols.contains "semester")
          db.students (normalize_columns t).rows db.marks 0 with
      | .error e => .error e
      | .ok (mk, n) => .ok (bump_rowcount { db with marks := mk } uid n)

/- ---------------- upload routes ---------------- -/

/-- The `/admin/upload/students` route: the upload record is persisted (and
committed) by `create_upload_record` before `import_students` runs;
an error of the importer is caught and flashed, leaving the ledger row
behind. -/
def upload_students_route (t : Table) (storedName actor : String) (db : DB) :
    DB × Option String :=
  let p := create_upload_record db storedName "Students" actor
  match import_students t p.2 p.1 with
  | .ok db2 => (db2, none)
  | .error e => (p.1, some e)

def upload_attendance_route (t : Table) (storedName actor : String) (db : DB) :
    DB × Option String :=
  let p := create_upload_record db storedName "Attendance" actor
  match import_attendance t p.2 p.1 with
  | .ok db2 => (db2, none)
  | .error e => (p.1, some e)

def upload_marks_route (t : Table) (storedName actor : String) (db : DB) :
    DB × Option String :=
  let p := create_upload_record db storedName "Marks" actor
  match import_marks t p.2 p.1 with
  | .ok db2 => (db2, none)
  | .error e => (p.1, some e)

/- ---------------- rollback ---------------- -/

/-- The roll numbers whose provenance entry for this upload says the
student was created by it. -/
def rollsCreatedBy (db : DB) (uid : Nat) : List String :=
  (db.upload_students_map.filter (fun e => e.upload_id = uid ∧ e.created_new)).map
    (fun e => e.roll_no)

/-- Rollback of an upload: false if the upload id is unknown; otherwise delete the
attendance/marks provenanced to it, the students its map says it created
(sqlite then cascades to those students' attendance, marks and remarks),
the map entries and the upload row itself. -/
def delete_upload (uid : Nat) (db : DB) : Bool × DB :=
  if db.uploads.any (fun u => u.id = uid) then
    let att1 := db.attendance.filter (fun a => a.source_upload_id ≠ some uid)
    let mk1 := db.marks.filter (fun m => m.source_upload_id ≠ some uid)
    let deleted := rollsCreatedBy db uid
    (true,
     { students := db.students.filter (fun s => s.roll_no ∉ deleted),
       attendance := att1.filter (fun a => a.roll_no ∉ deleted),
       marks := mk1.filter (fun m => m.roll_no ∉ deleted),
       remarks := db.remarks.filter (fun r => r.roll_no ∉ deleted),
       upload_students_map := db.upload_students_map.filter (fun e => e.upload_id ≠ uid),
       uploads := db.uploads.filter (fun u => u.id ≠ uid),
       next_upload_id := db.next_upload_id })
  else (false, db)

/- ---------------- wide views ---------------- -/

def letter_grade (pct : ℚ) : String :=
  if pct ≥ 85 then "A+"
  else if pct ≥ 75 then "A"
  else if pct ≥ 65 then "B+"
  else if pct ≥ 55 then "B"
  else if pct ≥ 45 then "C"
  else if pct ≥ 35 then "D"
  else "F"

/-- Model of `(100.0 * obtained / max) if max else 0.0`, as an exact rational. -/
def markPct (obtained maxm : Int) : ℚ :=
  if maxm ≠ 0 then 100 * (obtained : ℚ) / (maxm : ℚ) else 0

/-- The `ORDER BY exam, subject` order under the BINARY collation. -/
def markLe (a b : MarkRow) : Prop :=
  (a.exam = b.exam ∧ sLe a.subject b.subject) ∨ (a.exam ≠ b.exam ∧ sLe a.exam b.exam)

instance markLeDec : DecidableRel markLe := fun _ _ => instDecidableOr

def fmtMark (m : MarkRow) : String :=
  letter_grade (markPct m.marks_obtained m.max_marks) ++ " (" ++
    toString m.marks_obtained ++ "/" ++ toString m.max_marks ++ ")"

/-- The literal placeholder string the source writes into empty cells. -/
def dashCell : String :=
  (Char.ofNat 226).toString ++ (Char.ofNat 8364).toString ++ (Char.ofNat 8221).toString

/-- Python dict assignment: replace in place if the key exists, else append. -/
def dictInsert (k v : String) (d : List (String × String)) : List (String × String) :=
  if d.any (fun p => p.1 = k) then d.map (fun p => if p.1 = k then (k, v) else p)
  else d ++ [(k, v)]

/-- The first-seen accumulation of exam names. -/
def firstSeenAux : List String → List String → List String
  | [], acc => acc
  | x :: xs, acc => if x ∈ acc then firstSeenAux xs acc else firstSeenAux xs (acc ++ [x])

def gridCell (sorted : List MarkRow) (ex sub : String) : String :=
  match sorted.find? (fun m => m.exam = ex ∧ m.subject = sub) with
  | some m => fmtMark m
  | none => dashCell

def gridRowFor (sorted : List MarkRow) (subjects : List String) (ex : String) :
    List (String × String) :=
  subjects.foldl (fun d sub => dictInsert sub (gridCell sorted ex sub) d) [("Exam", ex)]

def build_marks_grid (db : DB) (roll : String) :
    List String × List (List (String × String)) :=
  let rows := List.insertionSort markLe (db.marks.filter (fun m => m.roll_no = roll))
  if rows.isEmpty then ([], [])
  else
    let subjects := List.insertionSort sLe (rows.map (fun m => m.subject)).dedup
    let exams := firstSeenAux (rows.map (fun m => m.exam)) []
    ("Exam" :: subjects, exams.map (gridRowFor rows subjects))

/- ---------------- reachable states ---------------- -/

/-- States reachable from the fresh schema through the admin upload routes
and upload rollback. -/
inductive Reachable : DB → Prop
  | init : Reachable emptyDB
  | students (t : Table) (fn actor : String) {db : DB} :
      Reachable db → Reachable (upload_students_route t fn actor db).1
  | attendance (t : Table) (fn actor : String) {db : DB} :
      Reachable db → Reachable (upload_attendance_route t fn actor db).1
  | marks (t : Table) (fn actor : String) {db : DB} :
      Reachable db → Reachable (upload_marks_route t fn actor db).1
  | rollback (uid : Nat) {db : DB} :
      Reachable db → Reachable (delete_upload uid db).2

/- ---------------- basic facts used by several claims ---------------- -/

set_option maxRecDepth 40000

/- ---------------- C4: grading thresholds ---------------- -/

/-- The seven grade bands of `letter_grade`, as half-open intervals. -/
def gradeBandsOk (pct : ℚ) : Prop :=
  (85 ≤ pct → letter_grade pct = "A+") ∧
  (75 ≤ pct ∧ pct < 85 → letter_grade pct = "A") ∧
  (65 ≤ pct ∧ pct < 75 → letter_grade pct = "B+") ∧
  (55 ≤ pct ∧ pct < 65 → letter_grade pct = "B") ∧
  (45 ≤ pct ∧ pct < 55 → letter_grade pct = "C") ∧
  (35 ≤ pct ∧ pct < 45 → letter_grade pct = "D") ∧
  (pct < 35 → letter_grade pct = "F")

/-- C4: `letter_grade` implements exactly the documented bands, yields the
four quoted sample values (84.9 = 849/10), and the percentage of a marks
cell is `100 * obtained / max`, or 0 when `max_marks` is 0, without any
error. -/
theorem c4_letter_grade_bands (pct : ℚ) (o m : Int) :
    gradeBandsOk pct ∧
    letter_grade 100 = "A+" ∧ letter_grade 85 = "A+" ∧
    letter_grade (849 / 10 : ℚ) = "A" ∧ letter_grade 0 = "F" ∧
    markPct o 0 = 0 ∧ (m ≠ 0 → markPct o m = 100 * (o : ℚ) / (m : ℚ)) := by
  refine ⟨?_, by decide, by decide, ?_, by decide, ?_, ?_⟩
  · unfold gradeBandsOk letter_grade
    refine ⟨?_, ?_, ?_, ?_, ?_, ?_, ?_⟩ <;>
      (intro h
       split_ifs <;>
         first
           | rfl
           | (exfalso; obtain ⟨h1, h2⟩ := h; linarith)
           | (exfalso; linarith))
  · unfold letter_grade
    norm_num
  · unfold markPct
    simp
  · intro hm
    unfold markPct
    rw [if_pos hm]

theorem c4_letter_grade_bands_witness :
    letter_grade 40 = "D" ∧ markPct 90 100 = 90 := by
  refine ⟨(c4_letter_grade_bands 40 90 100).1.2.2.2.2.2.1 (by norm_num), ?_⟩
  have h := (c4_letter_grade_bands 40 90 100).2.2.2.2.2.2 (by norm_num)
  rw [h]; norm_num

/- ---------------- C10: totality and monotonicity of grades ---------------- -/

/-- The rank of a grade in the order F < D < C < B < B+ < A < A+. -/
def gradeRank (g : String) : Nat :=
  if g = "F" then 0
  else if g = "D" then 1
  else if g = "C" then 2
  else if g = "B" then 3
  else if g = "B+" then 4
  else if g = "A" then 5
  else 6

/-- C10: `letter_grade` always returns one of the seven grade strings, and
is monotone with respect to the band order. -/
theorem c10_letter_grade_total_monotone (p q : ℚ) (hpq : p ≤ q) :
    letter_grade p ∈ (["A+", "A", "B+", "B", "C", "D", "F"] : List String) ∧
    gradeRank (letter_grade p) ≤ gradeRank (letter_grade q) := by
  unfold letter_grade
  split_ifs <;> first | exact ⟨by decide, by decide⟩ | linarith

theorem c10_letter_grade_total_monotone_witness :
    letter_grade 40 ∈ (["A+", "A", "B+", "B", "C", "D", "F"] : List String) ∧
    gradeRank (letter_grade 40) ≤ gradeRank (letter_grade 90) :=
  c10_letter_grade_total_monotone 40 90 (by norm_num)

/- ---------------- C6: rollback of an unknown upload id ---------------- -/

/-- C6: when no upload row carries the requested id, `delete_upload`
returns false and the store is untouched. -/
theorem c6_rollback_unknown_id (uid : Nat) (db : DB)
    (h : ∀ u ∈ db.uploads, u.id ≠ uid) :
    delete_upload uid db = (false, db) := by
  unfold delete_upload
  rw [if_neg]
  simp only [List.any_eq_true, decide_eq_true_eq, not_exists, not_and]
  exact h

theorem c6_rollback_unknown_id_witness :
    delete_upload 7 emptyDB = (false, emptyDB) :=
  c6_rollback_unknown_id 7 emptyDB (by decide)

/- ---------------- C1: Students import with a missing required column ---------------- -/

/-- C1 (amended): if after column normalization some required Students
column is missing (`c` being the first such column), the route fails with
the MissingColumn error for `c`, no student/attendance/marks/provenance row
is touched, and the only mutation is the upload-ledger row (row_count 0)
that `upload_students` had already committed before the importer ran. -/
theorem c1_missing_required_column (t : Table) (fn actor : String) (db : DB) (c : String)
    (h : requiredStudentCols.find?
          (fun c => ¬(normalize_columns t).cols.contains c) = some c) :
    upload_students_route t fn actor db =
      ({ db with
          uploads := db.uploads ++
            [{ id := db.next_upload_id, filename := fn, upload_type := "Students",
               row_count := 0, uploader_username := actor }],
          next_upload_id := db.next_upload_id + 1 },
       some (missingColMsg "Students" c)) := by
  unfold upload_students_route create_upload_record import_students
  simp only [h]

/-- The concrete table for C1: its only header is `name`. -/
def tableC1 : Table := { cols := ["name"], rows := [[("name", some "X")]] }

theorem c1_missing_required_column_witness :
    upload_students_route tableC1 "f.csv" "admin" emptyDB =
      ({ emptyDB with
          uploads := emptyDB.uploads ++
            [{ id := 1, filename := "f.csv", upload_type := "Students",
               row_count := 0, uploader_username := "admin" }],
          next_upload_id := 2 },
       some (missingColMsg "Students" "roll_no")) :=
  c1_missing_required_column tableC1 "f.csv" "admin" emptyDB "roll_no" (by decide)

/-- C1 as frozen is false: the failed import does mutate the database,
because the uploads-ledger row is committed before the importer raises. -/
theorem c1_counterexample :
    (upload_students_route tableC1 "f.csv" "admin" emptyDB).2 =
      some (missingColMsg "Students" "roll_no") ∧
    (upload_students_route tableC1 "f.csv" "admin" emptyDB).1 ≠ emptyDB ∧
    (upload_students_route tableC1 "f.csv" "admin" emptyDB).1.uploads.length =
      emptyDB.uploads.length + 1 := by
  refine ⟨?_, ?_, ?_⟩ <;> decide

/- ---------------- C2: Students re-import fully replaces fields ---------------- -/

theorem upsertStudent_find (s : Student) (l : List Student) :
    (upsertStudent s l).find? (fun x => x.roll_no = s.roll_no) = some s := by
  unfold upsertStudent
  split_ifs with h
  · induction l with
    | nil => simp at h
    | cons x xs ih =>
        simp only [List.any_cons, Bool.or_eq_true, decide_eq_true_eq] at h
        by_cases hx : x.roll_no = s.roll_no
        · simp [hx]
        · have hxs : xs.any (fun x => x.roll_no = s.roll_no) = true := by
            rcases h with h | h
            · exact absurd h hx
            · exact h
          simp only [List.map_cons, if_neg hx]
          rw [List.find?_cons_of_neg _ (by simpa using hx)]
          exact ih hxs
  · induction l with
    | nil => simp
    | cons x xs ih =>
        simp only [List.any_cons, Bool.or_eq_true, decide_eq_true_eq, not_or] at h
        simp only [List.cons_append]
        rw [List.find?_cons_of_neg _ (by simpa using h.1)]
        exact ih (by simpa [List.any_eq_true] using h.2)

theorem required_cols_check (req : List String) (t : Table)
    (h : ∀ c ∈ req, c ∈ (normalize_columns t).cols) :
    req.find? (fun c => ¬(normalize_columns t).cols.contains c) = none := by
  rw [List.find?_eq_none]
  intro c hc
  simp [h c hc]

/-- A Students import whose normalized table has exactly one row, with a
nonempty roll number, upserts the coerced record and appends one
provenance entry. -/
theorem import_students_single (t : Table) (u : Nat) (db : DB) (r : Row) (R : String)
    (hc : ∀ c ∈ requiredStudentCols, c ∈ (normalize_columns t).cols)
    (hr : (normalize_columns t).rows = [r])
    (hR : pyStrip (cellS r "roll_no") = R) (hne : R ≠ "") :
    import_students t u db = .ok (bump_rowcount
      { db with
          students := upsertStudent (studentOfRow r) db.students,
          upload_students_map := db.upload_students_map ++
            [{ upload_id := u, roll_no := R,
               created_new := !(db.students.any (fun x => x.roll_no = R)) }] }
      u (0 + 1)) := by
  unfold import_students
  rw [required_cols_check requiredStudentCols t hc, hr]
  simp only [List.foldl_cons, List.foldl_nil]
  unfold studentsStep
  simp only [hR, if_neg hne]

/-- C2: two Students imports that both apply a row with the same roll
number leave, after the second import, exactly the record coerced from the
second row: every field (name, email, phone, father_name, father_phone,
semester) is the second row's value, regardless of the first import and of
anything previously stored. -/
theorem c2_students_full_replace (t1 t2 : Table) (u1 u2 : Nat) (db : DB)
    (r1 r2 : Row) (R : String)
    (h1c : ∀ c ∈ requiredStudentCols, c ∈ (normalize_columns t1).cols)
    (h2c : ∀ c ∈ requiredStudentCols, c ∈ (normalize_columns t2).cols)
    (h1r : (normalize_columns t1).rows = [r1])
    (h2r : (normalize_columns t2).rows = [r2])
    (hR1 : pyStrip (cellS r1 "roll_no") = R)
    (hR2 : pyStrip (cellS r2 "roll_no") = R)
    (hR : R ≠ "") :
    ∃ db1 db2,
      import_students t1 u1 db = .ok db1 ∧
      import_students t2 u2 db1 = .ok db2 ∧
      db2.students.find? (fun s => s.roll_no = R) = some (studentOfRow r2) := by
  have hrollOf2 : (studentOfRow r2).roll_no = R := hR2
  have e1 := import_students_single t1 u1 db r1 R h1c h1r hR1 hR
  have e2 := import_students_single t2 u2
    (bump_rowcount
      { db with
          students := upsertStudent (studentOfRow r1) db.students,
          upload_students_map := db.upload_students_map ++
            [{ upload_id := u1, roll_no := R,
               created_new := !(db.students.any (fun x => x.roll_no = R)) }] }
      u1 (0 + 1))
    r2 R h2c h2r hR2 hR
  refine ⟨_, _, e1, e2, ?_⟩
  show (upsertStudent (studentOfRow r2)
      (upsertStudent (studentOfRow r1) db.students)).find?
      (fun s => s.roll_no = R) = some (studentOfRow r2)
  rw [← hrollOf2]
  exact upsertStudent_find (studentOfRow r2) _

/-- First Students file for the C2 witness: every optional field filled. -/
def rowC2a : Row :=
  [("roll_no", some "R1"), ("name", some "Alice"), ("email", some "a@x.com"),
   ("phone", some "111"), ("father_name", some "Fa"), ("father_phone", some "222"),
   ("semester", some "3")]

/-- Second Students file for the C2 witness: same roll, all optional fields
blank. -/
def rowC2b : Row :=
  [("roll_no", some "R1"), ("name", some "Bob"), ("email", some ""),
   ("phone", some ""), ("father_name", some ""), ("father_phone", some ""),
   ("semester", some "")]

def tableC2a : Table :=
  { cols := ["roll_no", "name", "email", "phone", "father_name", "father_phone", "semester"],
    rows := [rowC2a] }

def tableC2b : Table :=
  { cols := ["roll_no", "name", "email", "phone", "father_name", "father_phone", "semester"],
    rows := [rowC2b] }

theorem c2_students_full_replace_witness :
    ∃ db1 db2,
      import_students tableC2a 1 emptyDB = .ok db1 ∧
      import_students tableC2b 2 db1 = .ok db2 ∧
      db2.students.find? (fun s => s.roll_no = "R1") =
        some { roll_no := "R1", name := "Bob", email := none, phone := none,
               father_name := none, father_phone := none, semester := none } :=
  c2_students_full_replace tableC2a tableC2b 1 2 emptyDB rowC2a rowC2b "R1"
    (by decide) (by decide) (by decide) (by decide) (by decide) (by decide) (by decide)

/- ---------------- C3: COALESCE preserves semester/credits ---------------- -/

theorem upsertAtt_filter (a : AttRow) (l : List AttRow) (old : AttRow)
    (h : l.filter (fun x => x.roll_no = a.roll_no ∧ x.subject = a.subject) = [old]) :
    (upsertAtt a l).filter (fun x => x.roll_no = a.roll_no ∧ x.subject = a.subject) =
      [{ old with
          attended := a.attended, total := a.total,
          semester := (match a.semester with
            | some v => some v
            | none => old.semester),
          source_upload_id := a.source_upload_id }] := by
  have hmem : old ∈ l ∧ (old.roll_no = a.roll_no ∧ old.subject = a.subject) := by
    have hin : old ∈ l.filter (fun x => x.roll_no = a.roll_no ∧ x.subject = a.subject) := by
      rw [h]; exact List.mem_cons_self old []
    simpa using hin
  unfold upsertAtt
  split_ifs with hcond
  · rw [List.filter_map]
    rw [List.filter_congr (q := fun x => x.roll_no = a.roll_no ∧ x.subject = a.subject)
      (by
        intro x _
        by_cases hx : x.roll_no = a.roll_no ∧ x.subject = a.subject
        · simp [hx]
        · simp [hx]
          tauto)]
    rw [h]
    simp [hmem.2.1, hmem.2.2]
  · exfalso
    apply hcond
    simp only [List.any_eq_true]
    exact ⟨old, hmem.1, by simp [hmem.2.1, hmem.2.2]⟩

theorem upsertMark_filter (a : MarkRow) (l : List MarkRow) (old : MarkRow)
    (h : l.filter (fun x => x.roll_no = a.roll_no ∧ x.exam = a.exam ∧ x.subject = a.subject) =
      [old]) :
    (upsertMark a l).filter
        (fun x => x.roll_no = a.roll_no ∧ x.exam = a.exam ∧ x.subject = a.subject) =
      [{ old with
          max_marks := a.max_marks, marks_obtained := a.marks_obtained,
          credits := (match a.credits with
            | some v => some v
            | none => old.credits),
          semester := (match a.semester with
            | some v => some v
            | none => old.semester),
          source_upload_id := a.source_upload_id }] := by
  have hmem : old ∈ l ∧ (old.roll_no = a.roll_no ∧ old.exam = a.exam ∧ old.subject = a.subject) := by
    have hin : old ∈ l.filter
        (fun x => x.roll_no = a.roll_no ∧ x.exam = a.exam ∧ x.subject = a.subject) := by
      rw [h]; exact List.mem_cons_self old []
    simpa using hin
  unfold upsertMark
  split_ifs with hcond
  · rw [List.filter_map]
    rw [List.filter_congr
      (q := fun x => x.roll_no = a.roll_no ∧ x.exam = a.exam ∧ x.subject = a.subject)
      (by
        intro x _
        by_cases hx : x.roll_no = a.roll_no ∧ x.exam = a.exam ∧ x.subject = a.subject
        · simp [hx]
        · simp [hx]
          tauto)]
    rw [h]
    simp [hmem.2.1, hmem.2.2.1, hmem.2.2.2]
  · exfalso
    apply hcond
    simp only [List.any_eq_true]
    exact ⟨old, hmem.1, by simp [hmem.2.1, hmem.2.2.1, hmem.2.2.2]⟩

/-- An Attendance import of a single valid row against a table with no
`semester` column applies one upsert whose semester field is null. -/
theorem import_attendance_single (t : Table) (u : Nat) (db : DB) (r : Row)
    (R S : String) (A T : Int)
    (hc : ∀ c ∈ requiredAttCols, c ∈ (normalize_columns t).cols)
    (hnosem : (normalize_columns t).cols.contains "semester" = false)
    (hr : (normalize_columns t).rows = [r])
    (hRe : pyStrip (cellA r "roll_no") = R) (hSe : pyStrip (cellA r "subject") = S)
    (hRne : R ≠ "") (hSne : S ≠ "")
    (hA : pyCount (cellA r "attended") = some A) (hT : pyCount (cellA r "total") = some T)
    (hfk : db.students.any (fun s => s.roll_no = R) = true) :
    import_attendance t u db = .ok (bump_rowcount
      { db with
          attendance := upsertAtt
            { roll_no := R, subject := S, attended := A, total := T,
              semester := none, source_upload_id := some u } db.attendance }
      u (0 + 1)) := by
  unfold import_attendance
  rw [required_cols_check requiredAttCols t hc, hr, hnosem]
  unfold applyAttRows
  simp only [hRe, hSe, hA, hT]
  rw [if_neg (by simp [hRne, hSne])]
  simp only [hfk, if_true, Bool.false_eq_true, if_false]
  rfl

/-- A Marks import of a single valid row against a table with neither a
`credits` nor a `semester` column applies one upsert with both null. -/
theorem import_marks_single (t : Table) (u : Nat) (db : DB) (r : Row)
    (R E S : String) (M G : Int)
    (hc : ∀ c ∈ requiredMarkCols, c ∈ (normalize_columns t).cols)
    (hnocred : (normalize_columns t).cols.contains "credits" = false)
    (hnosem : (normalize_columns t).cols.contains "semester" = false)
    (hr : (normalize_columns t).rows = [r])
    (hRe : pyStrip (cellA r "roll_no") = R) (hEe : pyStrip (cellA r "exam") = E)
    (hSe : pyStrip (cellA r "subject") = S)
    (hRne : R ≠ "") (hEne : E ≠ "") (hSne : S ≠ "")
    (hM : pyCount (cellA r "max_marks") = some M)
    (hG : pyCount (cellA r "marks_obtained") = some G)
    (hfk : db.students.any (fun s => s.roll_no = R) = true) :
    import_marks t u db = .ok (bump_rowcount
      { db with
          marks := upsertMark
            { roll_no := R, exam := E, subject := S, max_marks := M,
              marks_obtained := G, credits := none, semester := none,
              source_upload_id := some u } db.marks }
      u (0 + 1)) := by
  unfold import_marks
  rw [required_cols_check requiredMarkCols t hc, hr, hnocred, hnosem]
  unfold applyMarkRows
  simp only [hRe, hEe, hSe, hM, hG]
  rw [if_neg (by simp [hRne, hEne, hSne])]
  simp only [hfk, if_true, Bool.false_eq_true, if_false]
  rfl

/-- C3: re-importing an existing attendance key from a file without a
`semester` column (resp. an existing marks key from a file without
`credits`/`semester` columns) overwrites attended/total (resp.
max_marks/marks_obtained) and the source upload id unconditionally, while
the stored semester (resp. credits and semester) survives unchanged — the
resulting record is `old` with only those fields replaced. -/
theorem c3_reimport_preserves_nullable (ta tm : Table) (ua um : Nat) (dba dbm : DB)
    (ra rm : Row) (R S : String) (A T : Int) (olda : AttRow)
    (R2 E2 S2 : String) (M G : Int) (oldm : MarkRow)
    (hac : ∀ c ∈ requiredAttCols, c ∈ (normalize_columns ta).cols)
    (hanosem : (normalize_columns ta).cols.contains "semester" = false)
    (har : (normalize_columns ta).rows = [ra])
    (haR : pyStrip (cellA ra "roll_no") = R) (haS : pyStrip (cellA ra "subject") = S)
    (haRne : R ≠ "") (haSne : S ≠ "")
    (haA : pyCount (cellA ra "attended") = some A)
    (haT : pyCount (cellA ra "total") = some T)
    (hafk : dba.students.any (fun s => s.roll_no = R) = true)
    (haold : dba.attendance.filter (fun x => x.roll_no = R ∧ x.subject = S) = [olda])
    (hmc : ∀ c ∈ requiredMarkCols, c ∈ (normalize_columns tm).cols)
    (hmnocred : (normalize_columns tm).cols.contains "credits" = false)
    (hmnosem : (normalize_columns tm).cols.contains "semester" = false)
    (hmr : (normalize_columns tm).rows = [rm])
    (hmR : pyStrip (cellA rm "roll_no") = R2) (hmE : pyStrip (cellA rm "exam") = E2)
    (hmS : pyStrip (cellA rm "subject") = S2)
    (hmRne : R2 ≠ "") (hmEne : E2 ≠ "") (hmSne : S2 ≠ "")
    (hmM : pyCount (cellA rm "max_marks") = some M)
    (hmG : pyCount (cellA rm "marks_obtained") = some G)
    (hmfk : dbm.students.any (fun s => s.roll_no = R2) = true)
    (hmold : dbm.marks.filter (fun x => x.roll_no = R2 ∧ x.exam = E2 ∧ x.subject = S2) =
      [oldm]) :
    (∃ dba2, import_attendance ta ua dba = .ok dba2 ∧
      dba2.attendance.filter (fun x => x.roll_no = R ∧ x.subject = S) =
        [{ olda with
            attended := A, total := T, source_upload_id := some ua }]) ∧
    (∃ dbm2, import_marks tm um dbm = .ok dbm2 ∧
      dbm2.marks.filter (fun x => x.roll_no = R2 ∧ x.exam = E2 ∧ x.subject = S2) =
        [{ oldm with
            max_marks := M, marks_obtained := G, source_upload_id := some um }]) := by
  constructor
  · refine ⟨_, import_attendance_single ta ua dba ra R S A T hac hanosem har haR haS
      haRne haSne haA haT hafk, ?_⟩
    show (upsertAtt
        { roll_no := R, subject := S, attended := A, total := T,
          semester := none, source_upload_id := some ua } dba.attendance).filter
        (fun x => x.roll_no = R ∧ x.subject = S) = _
    exact upsertAtt_filter
      { roll_no := R, subject := S, attended := A, total := T,
        semester := none, source_upload_id := some ua } dba.attendance olda haold
  · refine ⟨_, import_marks_single tm um dbm rm R2 E2 S2 M G hmc hmnocred hmnosem hmr
      hmR hmE hmS hmRne hmEne hmSne hmM hmG hmfk, ?_⟩
    show (upsertMark
        { roll_no := R2, exam := E2, subject := S2, max_marks := M, marks_obtained := G,
          credits := none, semester := none, source_upload_id := some um } dbm.marks).filter
        (fun x => x.roll_no = R2 ∧ x.exam = E2 ∧ x.subject = S2) = _
    exact upsertMark_filter
      { roll_no := R2, exam := E2, subject := S2, max_marks := M, marks_obtained := G,
        credits := none, semester := none, source_upload_id := some um }
      dbm.marks oldm hmold

/-- Store for the C3 witness: one student, one attendance record with a
stored semester, one mark record with stored credits and semester. -/
def dbC3 : DB :=
  { students := [{ roll_no := "R1", name := "A", email := none, phone := none,
                   father_name := none, father_phone := none, semester := none }],
    attendance := [{ roll_no := "R1", subject := "Math", attended := 3, total := 4,
                     semester := some 5, source_upload_id := some 1 }],
    marks := [{ roll_no := "R1", exam := "Mid", subject := "Math", max_marks := 50,
                marks_obtained := 20, credits := some 4, semester := some 5,
                source_upload_id := some 1 }],
    uploads := [], upload_students_map := [], remarks := [], next_upload_id := 3 }

def rowC3a : Row :=
  [("roll_no", some "R1"), ("subject", some "Math"),
   ("attended", some "7"), ("total", some "9")]

def tableC3a : Table :=
  { cols := ["roll_no", "subject", "attended", "total"], rows := [rowC3a] }

def rowC3m : Row :=
  [("roll_no", some "R1"), ("exam", some "Mid"), ("subject", some "Math"),
   ("max_marks", some "100"), ("marks_obtained", some "90")]

def tableC3m : Table :=
  { cols := ["roll_no", "exam", "subject", "max_marks", "marks_obtained"],
    rows := [rowC3m] }

theorem c3_reimport_preserves_nullable_witness :
    (∃ dba2, import_attendance tableC3a 7 dbC3 = .ok dba2 ∧
      dba2.attendance.filter (fun x => x.roll_no = "R1" ∧ x.subject = "Math") =
        [{ roll_no := "R1", subject := "Math", attended := 7, total := 9,
           semester := some 5, source_upload_id := some 7 }]) ∧
    (∃ dbm2, import_marks tableC3m 8 dbC3 = .ok dbm2 ∧
      dbm2.marks.filter
          (fun x => x.roll_no = "R1" ∧ x.exam = "Mid" ∧ x.subject = "Math") =
        [{ roll_no := "R1", exam := "Mid", subject := "Math", max_marks := 100,
           marks_obtained := 90, credits := some 4, semester := some 5,
           source_upload_id := some 8 }]) :=
  c3_reimport_preserves_nullable tableC3a tableC3m 7 8 dbC3 dbC3 rowC3a rowC3m
    "R1" "Math" 7 9
    { roll_no := "R1", subject := "Math", attended := 3, total := 4,
      semester := some 5, source_upload_id := some 1 }
    "R1" "Mid" "Math" 100 90
    { roll_no := "R1", exam := "Mid", subject := "Math", max_marks := 50,
      marks_obtained := 20, credits := some 4, semester := some 5,
      source_upload_id := some 1 }
    (by decide) (by decide) (by decide) (by decide) (by decide) (by decide)
    (by decide) (by decide) (by decide) (by decide) (by decide)
    (by decide) (by decide) (by decide) (by decide) (by decide) (by decide)
    (by decide) (by decide) (by decide) (by decide) (by decide)
    (by decide) (by decide) (by decide)

/- ---------------- C5: what rollback deletes ---------------- -/

theorem upsertStudent_roll_mem (s0 : Student) (l : List Student) (R : String)
    (h : ∃ s ∈ l, s.roll_no = R) :
    ∃ s ∈ upsertStudent s0 l, s.roll_no = R := by
  obtain ⟨s, hs, hR⟩ := h
  unfold upsertStudent
  split_ifs with hany
  · by_cases hmatch : s.roll_no = s0.roll_no
    · refine ⟨s0, ?_, by rw [← hmatch]; exact hR⟩
      have hmem := List.mem_map_of_mem (fun x => if x.roll_no = s0.roll_no then s0 else x) hs
      simpa [if_pos hmatch] using hmem
    · refine ⟨s, ?_, hR⟩
      have hmem := List.mem_map_of_mem (fun x => if x.roll_no = s0.roll_no then s0 else x) hs
      simpa [if_neg hmatch] using hmem
  · exact ⟨s, List.mem_append_left _ hs, hR⟩

theorem foldl_studentsStep_roll_mem (uid : Nat) (rows : List Row)
    (st0 : List Student × List MapRow × Nat) (R : String)
    (h : ∃ s ∈ st0.1, s.roll_no = R) :
    ∃ s ∈ (rows.foldl (studentsStep uid) st0).1, s.roll_no = R := by
  induction rows generalizing st0 with
  | nil => exact h
  | cons r rs ih =>
      rw [List.foldl_cons]
      apply ih
      unfold studentsStep
      split_ifs with hempty
      · exact h
      · exact upsertStudent_roll_mem (studentOfRow r) st0.1 R h

theorem foldl_studentsStep_map (uid : Nat) (rows : List Row)
    (st0 : List Student × List MapRow × Nat) :
    ∃ new, (rows.foldl (studentsStep uid) st0).2.1 = st0.2.1 ++ new ∧
      ∀ e ∈ new, e.upload_id = uid ∧
        ((∃ s ∈ st0.1, s.roll_no = e.roll_no) → e.created_new = false) := by
  induction rows generalizing st0 with
  | nil => exact ⟨[], by simp⟩
  | cons r rs ih =>
      rw [List.foldl_cons]
      by_cases hempty : pyStrip (cellS r "roll_no") = ""
      · have hstep : studentsStep uid st0 r = st0 := by
          unfold studentsStep
          rw [if_pos hempty]
        rw [hstep]
        exact ih st0
      · have hstep : studentsStep uid st0 r =
            (upsertStudent (studentOfRow r) st0.1,
             st0.2.1 ++ [{ upload_id := uid, roll_no := pyStrip (cellS r "roll_no"),
                           created_new := !(st0.1.any (fun x =>
                             x.roll_no = pyStrip (cellS r "roll_no"))) }],
             st0.2.2 + 1) := by
          unfold studentsStep
          rw [if_neg hempty]
        rw [hstep]
        obtain ⟨new, hmap, hnew⟩ := ih
          (upsertStudent (studentOfRow r) st0.1,
           st0.2.1 ++ [{ upload_id := uid, roll_no := pyStrip (cellS r "roll_no"),
                         created_new := !(st0.1.any (fun x =>
                           x.roll_no = pyStrip (cellS r "roll_no"))) }],
           st0.2.2 + 1)
        refine ⟨{ upload_id := uid, roll_no := pyStrip (cellS r "roll_no"),
                  created_new := !(st0.1.any (fun x =>
                    x.roll_no = pyStrip (cellS r "roll_no"))) } :: new, ?_, ?_⟩
        · simpa using hmap
        · intro e he
          rcases List.mem_cons.mp he with he | he
          · subst he
            refine ⟨rfl, ?_⟩
            intro hex
            have hany : st0.1.any (fun x =>
                x.roll_no = pyStrip (cellS r "roll_no")) = true := by
              simp only [List.any_eq_true, decide_eq_true_eq]
              exact hex
            simp [hany]
          · have := hnew e he
            refine ⟨this.1, fun hex => this.2 ?_⟩
            exact upsertStudent_roll_mem (studentOfRow r) st0.1 e.roll_no hex

theorem import_students_ok (t : Table) (uid : Nat) (db dbI : DB)
    (h : import_students t uid db = .ok dbI) :
    dbI.students = ((normalize_columns t).rows.foldl (studentsStep uid)
      (db.students, db.upload_students_map, 0)).1 ∧
    dbI.upload_students_map = ((normalize_columns t).rows.foldl (studentsStep uid)
      (db.students, db.upload_students_map, 0)).2.1 ∧
    dbI.attendance = db.attendance ∧ dbI.marks = db.marks ∧
    dbI.remarks = db.remarks := by
  unfold import_students at h
  cases hf : requiredStudentCols.find? (fun c => ¬(normalize_columns t).cols.contains c) with
  | some c =>
      simp only [hf] at h
      exact Except.noConfusion h
  | none =>
      simp only [hf] at h
      injection h with h
      subst h
      dsimp only [bump_rowcount]
      exact ⟨rfl, rfl, rfl, rfl, rfl⟩

theorem delete_upload_of_any_false (uid : Nat) (db : DB)
    (h : db.uploads.any (fun u => u.id = uid) = false) :
    delete_upload uid db = (false, db) := by
  unfold delete_upload
  rw [if_neg (by simp [h])]

/-- C5 (amended): when the upload exists, rollback reports true and the
resulting store keeps exactly the attendance/marks rows not provenanced to
this upload and not owned by a student this upload created (the latter drop
out through the cascade), the students not created by this upload, the
remarks of surviving students, the provenance entries of other uploads and
the other upload rows; and a student that was already stored before a
Students import is recorded by it only with `created_new = false`, so a
subsequent rollback of that import never loses the student's row. -/
theorem c5_rollback_deletes (db : DB) (uid : Nat) :
    ((db.uploads.any (fun u => u.id = uid) = true) →
      (delete_upload uid db).1 = true ∧
      (∀ a : AttRow, a ∈ (delete_upload uid db).2.attendance ↔
        a ∈ db.attendance ∧ a.source_upload_id ≠ some uid ∧
          a.roll_no ∉ rollsCreatedBy db uid) ∧
      (∀ m : MarkRow, m ∈ (delete_upload uid db).2.marks ↔
        m ∈ db.marks ∧ m.source_upload_id ≠ some uid ∧
          m.roll_no ∉ rollsCreatedBy db uid) ∧
      (∀ s : Student, s ∈ (delete_upload uid db).2.students ↔
        s ∈ db.students ∧ s.roll_no ∉ rollsCreatedBy db uid) ∧
      (∀ r : RemarkRow, r ∈ (delete_upload uid db).2.remarks ↔
        r ∈ db.remarks ∧ r.roll_no ∉ rollsCreatedBy db uid) ∧
      (∀ e : MapRow, e ∈ (delete_upload uid db).2.upload_students_map ↔
        e ∈ db.upload_students_map ∧ e.upload_id ≠ uid) ∧
      (∀ u : UploadRow, u ∈ (delete_upload uid db).2.uploads ↔
        u ∈ db.uploads ∧ u.id ≠ uid)) ∧
    (∀ t uidI dbI, import_students t uidI db = .ok dbI →
      (∀ e ∈ db.upload_students_map, e.upload_id ≠ uidI) →
      ∀ s ∈ db.students, ∃ s2,
        s2 ∈ (delete_upload uidI dbI).2.students ∧ s2.roll_no = s.roll_no) := by
  constructor
  · intro hfound
    unfold delete_upload
    rw [if_pos hfound]
    refine ⟨rfl, ?_, ?_, ?_, ?_, ?_, ?_⟩ <;>
      (intro x; simp [List.mem_filter, and_assoc]) <;> tauto
  · intro t uidI dbI himp hfresh s hs
    obtain ⟨hstu, hmap, -, -, -⟩ := import_students_ok t uidI db dbI himp
    obtain ⟨s2, hs2, hroll⟩ := foldl_studentsStep_roll_mem uidI (normalize_columns t).rows
      (db.students, db.upload_students_map, 0) s.roll_no ⟨s, hs, rfl⟩
    rw [← hstu] at hs2
    have hnotin : s.roll_no ∉ rollsCreatedBy dbI uidI := by
      intro hin
      unfold rollsCreatedBy at hin
      obtain ⟨newE, hmapEq, hnew⟩ := foldl_studentsStep_map uidI (normalize_columns t).rows
        (db.students, db.upload_students_map, 0)
      rw [hmap, hmapEq] at hin
      simp only [List.mem_map, List.mem_filter, List.mem_append,
        decide_eq_true_eq] at hin
      obtain ⟨e, ⟨hemem, heid, hecreated⟩, heroll⟩ := hin
      rcases hemem with hemem | hemem
      · exact hfresh e hemem heid
      · have hprops := hnew e hemem
        have : e.created_new = false :=
          hprops.2 ⟨s, hs, heroll.symm⟩
        rw [this] at hecreated
        exact Bool.false_ne_true hecreated
    cases hfound : dbI.uploads.any (fun u => u.id = uidI) with
    | false =>
        rw [delete_upload_of_any_false uidI dbI hfound]
        exact ⟨s2, hs2, hroll⟩
    | true =>
        unfold delete_upload
        rw [if_pos hfound]
        refine ⟨s2, ?_, hroll⟩
        simp only [List.mem_filter, decide_eq_true_eq]
        exact ⟨hs2, by rw [hroll]; simpa using hnotin⟩

def rowC5s : Row :=
  [("roll_no", some "R1"), ("name", some "Al"), ("email", some ""),
   ("phone", some ""), ("father_name", some ""), ("father_phone", some ""),
   ("semester", some "")]

def tableC5s : Table :=
  { cols := ["roll_no", "name", "email", "phone", "father_name", "father_phone", "semester"],
    rows := [rowC5s] }

def tableC5a : Table :=
  { cols := ["roll_no", "subject", "attended", "total"],
    rows := [[("roll_no", some "R1"), ("subject", some "Math"),
              ("attended", some "3"), ("total", some "4")]] }

/-- The C5 trace: upload 1 creates student R1, upload 2 stores attendance
for R1. -/
def dbC5 : DB :=
  (upload_attendance_route tableC5a "a.csv" "admin"
    (upload_students_route tableC5s "s.csv" "admin" emptyDB).1).1

/-- C5 as frozen is false: rolling back upload 1 (which created student R1)
also deletes — through the student cascade — the attendance row whose
provenance upload id is 2, so the deletions are not exactly the records
provenanced to upload 1. -/
theorem c5_counterexample :
    dbC5.attendance ≠ [] ∧
    (∀ a ∈ dbC5.attendance, a.source_upload_id = some 2) ∧
    (delete_upload 1 dbC5).1 = true ∧
    (delete_upload 1 dbC5).2.attendance = [] := by
  refine ⟨?_, ?_, ?_, ?_⟩ <;> decide

def stuC5 : Student :=
  { roll_no := "R1", name := "Al", email := none, phone := none,
    father_name := none, father_phone := none, semester := none }

/-- A store that already contains student R1 before any upload. -/
def dbC5pre : DB :=
  { students := [stuC5], attendance := [], marks := [], uploads := [],
    upload_students_map := [], remarks := [], next_upload_id := 1 }

def dbC5post : DB :=
  { students := [stuC5], attendance := [], marks := [], uploads := [],
    upload_students_map := [{ upload_id := 5, roll_no := "R1", created_new := false }],
    remarks := [], next_upload_id := 1 }

theorem c5_rollback_deletes_witness :
    (delete_upload 1 dbC5).1 = true ∧
    (∃ s2, s2 ∈ (delete_upload 5 dbC5post).2.students ∧ s2.roll_no = "R1") :=
  ⟨((c5_rollback_deletes dbC5 1).1 (by decide)).1,
   (c5_rollback_deletes dbC5pre 0).2 tableC5s 5 dbC5post (by rfl) (by decide)
     stuC5 (by decide)⟩

/- ---------------- C7: rows with a missing identifying cell ---------------- -/

/-- The C7 attendance file: one fully valid row for R1, then a row whose
roll cell is missing (a pandas NaN). -/
def tableC7 : Table :=
  { cols := ["roll_no", "subject", "attended", "total"],
    rows := [[("roll_no", some "R1"), ("subject", some "Math"),
              ("attended", some "3"), ("total", some "4")],
             [("roll_no", none), ("subject", some "Phys"),
              ("attended", some "2"), ("total", some "4")]] }

def stuC7 : Student :=
  { roll_no := "R1", name := "Al", email := none, phone := none,
    father_name := none, father_phone := none, semester := none }

def dbC7 : DB :=
  { students := [stuC7], attendance := [], marks := [], uploads := [],
    upload_students_map := [], remarks := [], next_upload_id := 1 }

/-- C7 fails on the code: `fillna(0)` turns the missing roll cell into the
string "0" before the skip check runs, so the row is not skipped; the
insert for roll "0" violates the students foreign key, the whole import
errors out, and even the valid first row of the same file is not applied
(the route keeps only the pre-committed ledger row). -/
theorem c7_missing_roll_aborts :
    import_attendance tableC7 9 dbC7 = .error fkErr ∧
    (upload_attendance_route tableC7 "a.csv" "admin" dbC7).2 = some fkErr ∧
    (upload_attendance_route tableC7 "a.csv" "admin" dbC7).1.attendance = [] := by
  refine ⟨by rfl, by rfl, by decide⟩

/- ---------------- C9: attendance invariants over reachable states ---------------- -/

def attKeyDistinct (a b : AttRow) : Prop :=
  ¬(a.roll_no = b.roll_no ∧ a.subject = b.subject)

/-- At most one attendance record per (roll_no, subject). -/
def attKeysUnique (db : DB) : Prop := db.attendance.Pairwise attKeyDistinct

theorem upsertAtt_pairwise (a : AttRow) (l : List AttRow)
    (h : l.Pairwise attKeyDistinct) : (upsertAtt a l).Pairwise attKeyDistinct := by
  unfold upsertAtt
  split_ifs with hany
  · refine List.Pairwise.map _ ?_ h
    intro x y hxy
    unfold attKeyDistinct at *
    by_cases hx : x.roll_no = a.roll_no ∧ x.subject = a.subject <;>
      by_cases hy : y.roll_no = a.roll_no ∧ y.subject = a.subject <;>
        simp [hx, hy] <;> simp_all
  · rw [List.pairwise_append]
    refine ⟨h, List.pairwise_singleton _ _, ?_⟩
    intro x hx y hy
    rw [List.mem_singleton] at hy
    subst hy
    simp only [List.any_eq_true, decide_eq_true_eq, not_exists, not_and] at hany
    intro hk
    exact absurd hk (by
      have := hany x hx
      tauto)

theorem applyAttRows_pairwise (uid : Nat) (hasSem : Bool) (students : List Student)
    (rows : List Row) :
    ∀ (acc : List AttRow) (n : Nat) (res : List AttRow × Nat),
      applyAttRows uid hasSem students rows acc n = .ok res →
      acc.Pairwise attKeyDistinct → res.1.Pairwise attKeyDistinct := by
  induction rows with
  | nil =>
      intro acc n res h hp
      unfold applyAttRows at h
      injection h with h
      subst h
      exact hp
  | cons r rs ih =>
      intro acc n res h hp
      unfold applyAttRows at h
      by_cases hskip : pyStrip (cellA r "roll_no") = "" ∨ pyStrip (cellA r "subject") = ""
      · rw [if_pos hskip] at h
        exact ih acc n res h hp
      · rw [if_neg hskip] at h
        cases hA : pyCount (cellA r "attended") with
        | none =>
            simp only [hA] at h
            exact Except.noConfusion h
        | some av =>
            cases hT : pyCount (cellA r "total") with
            | none =>
                simp only [hA, hT] at h
                exact Except.noConfusion h
            | some tv =>
                simp only [hA, hT] at h
                by_cases hfk : students.any
                    (fun s => s.roll_no = pyStrip (cellA r "roll_no")) = true
                · rw [if_pos hfk] at h
                  exact ih _ _ res h (upsertAtt_pairwise _ _ hp)
                · rw [if_neg hfk] at h
                  exact Except.noConfusion h

theorem import_attendance_pairwise (t : Table) (uid : Nat) (db dbI : DB)
    (h : import_attendance t uid db = .ok dbI)
    (hp : db.attendance.Pairwise attKeyDistinct) :
    dbI.attendance.Pairwise attKeyDistinct := by
  unfold import_attendance at h
  generalize hN : normalize_columns t = N at h
  cases hf : requiredAttCols.find? (fun c => ¬N.cols.contains c) with
  | some c =>
      simp only [hf] at h
      exact Except.noConfusion h
  | none =>
      simp only [hf] at h
      cases happ : applyAttRows uid (N.cols.contains "semester")
          db.students N.rows db.attendance 0 with
      | error e =>
          simp only [happ] at h
          exact Except.noConfusion h
      | ok p =>
          simp only [happ] at h
          injection h with h
          subst h
          exact applyAttRows_pairwise uid _ db.students N.rows
            db.attendance 0 p happ hp

theorem import_marks_preserves_attendance (t : Table) (uid : Nat) (db dbI : DB)
    (h : import_marks t uid db = .ok dbI) : dbI.attendance = db.attendance := by
  unfold import_marks at h
  generalize hN : normalize_columns t = N at h
  cases hf : requiredMarkCols.find? (fun c => ¬N.cols.contains c) with
  | some c =>
      simp only [hf] at h
      exact Except.noConfusion h
  | none =>
      simp only [hf] at h
      cases happ : applyMarkRows uid (N.cols.contains "credits")
          (N.cols.contains "semester") db.students N.rows db.marks 0 with
      | error e =>
          simp only [happ] at h
          exact Except.noConfusion h
      | ok p =>
          obtain ⟨mk, n⟩ := p
          simp only [happ, Except.ok.injEq] at h
          subst h
          rfl
/-- C9 (amended): along every state reachable through the upload routes and
rollback, there is at most one attendance record per (roll_no, subject);
attended/total are integers but may be negative (see the counterexample). -/
theorem c9_attendance_key_unique (db : DB) (h : Reachable db) : attKeysUnique db := by
  induction h with
  | init => exact List.Pairwise.nil
  | @students t fn actor dbp hdb ih =>
      unfold attKeysUnique upload_students_route
      cases himp : import_students t (create_upload_record dbp fn "Students" actor).2
          (create_upload_record dbp fn "Students" actor).1 with
      | ok d =>
          simp only [himp]
          obtain ⟨-, -, hatt, -, -⟩ := import_students_ok _ _ _ _ himp
          rw [hatt]
          exact ih
      | error e =>
          simp only [himp]
          exact ih
  | @attendance t fn actor dbp hdb ih =>
      unfold attKeysUnique upload_attendance_route
      cases himp : import_attendance t (create_upload_record dbp fn "Attendance" actor).2
          (create_upload_record dbp fn "Attendance" actor).1 with
      | ok d =>
          simp only [himp]
          exact import_attendance_pairwise _ _ _ _ himp ih
      | error e =>
          simp only [himp]
          exact ih
  | @marks t fn actor dbp hdb ih =>
      unfold attKeysUnique upload_marks_route
      cases himp : import_marks t (create_upload_record dbp fn "Marks" actor).2
          (create_upload_record dbp fn "Marks" actor).1 with
      | ok d =>
          simp only [himp]
          rw [import_marks_preserves_attendance _ _ _ _ himp]
          exact ih
      | error e =>
          simp only [himp]
          exact ih
  | @rollback uid dbp hdb ih =>
      unfold attKeysUnique delete_upload
      split_ifs with hfound
      · exact List.Pairwise.sublist
          ((List.filter_sublist _).trans (List.filter_sublist _)) ih
      · exact ih

def tableC9s : Table :=
  { cols := ["roll_no", "name", "email", "phone", "father_name", "father_phone", "semester"],
    rows := [[("roll_no", some "R1"), ("name", some "Al"), ("email", some ""),
              ("phone", some ""), ("father_name", some ""), ("father_phone", some ""),
              ("semester", some "")]] }

/-- An attendance file carrying a negative attended count. -/
def tableC9a : Table :=
  { cols := ["roll_no", "subject", "attended", "total"],
    rows := [[("roll_no", some "R1"), ("subject", some "M"),
              ("attended", some "-5"), ("total", some "4")]] }

def dbC9 : DB :=
  (upload_attendance_route tableC9a "a.csv" "admin"
    (upload_students_route tableC9s "s.csv" "admin" emptyDB).1).1

/-- C9 as frozen is false: the importer coerces "-5" with `int(float(.))`
and stores it, so a reachable state holds an attendance record with a
negative attended count — non-negativity is not an invariant. -/
theorem c9_counterexample :
    Reachable dbC9 ∧ ∃ a ∈ dbC9.attendance, a.attended < 0 := by
  constructor
  · exact Reachable.attendance tableC9a "a.csv" "admin"
      (Reachable.students tableC9s "s.csv" "admin" Reachable.init)
  · decide

theorem c9_attendance_key_unique_witness : attKeysUnique dbC9 :=
  c9_attendance_key_unique dbC9
    (Reachable.attendance tableC9a "a.csv" "admin"
      (Reachable.students tableC9s "s.csv" "admin" Reachable.init))

/- ---------------- C8: the marks grid ---------------- -/

theorem charListLe_refl : ∀ l, charListLe l l = true
  | [] => rfl
  | a :: as => by simp [charListLe, lt_irrefl, charListLe_refl as]

theorem charListLe_total : ∀ a b, charListLe a b = true ∨ charListLe b a = true
  | [], _ => Or.inl rfl
  | _ :: _, [] => Or.inr rfl
  | a :: as, b :: bs => by
      rcases lt_trichotomy a b with h | h | h
      · left; simp [charListLe, h]
      · subst h
        rcases charListLe_total as bs with ih | ih
        · left; simp [charListLe, lt_irrefl, ih]
        · right; simp [charListLe, lt_irrefl, ih]
      · right; simp [charListLe, h]

theorem charListLe_trans : ∀ a b c, charListLe a b = true → charListLe b c = true →
    charListLe a c = true
  | [], _, _, _, _ => rfl
  | _ :: _, [], _, h1, _ => by simp [charListLe] at h1
  | _ :: _, _ :: _, [], _, h2 => by simp [charListLe] at h2
  | a :: as, b :: bs, c :: cs, h1, h2 => by
      simp only [charListLe] at h1 h2 ⊢
      rcases lt_trichotomy a b with hab | hab | hab
      · rcases lt_trichotomy b c with hbc | hbc | hbc
        · simp [lt_trans hab hbc]
        · subst hbc; simp [hab]
        · rw [if_neg (asymm hbc), if_pos hbc] at h2
          exact absurd h2 (by simp)
      · subst hab
        rw [if_neg (lt_irrefl a), if_neg (lt_irrefl a)] at h1
        rcases lt_trichotomy a c with hac | hac | hac
        · simp [hac]
        · subst hac
          rw [if_neg (lt_irrefl a), if_neg (lt_irrefl a)] at h2 ⊢
          exact charListLe_trans as bs cs h1 h2
        · rw [if_neg (asymm hac), if_pos hac] at h2
          exact absurd h2 (by simp)
      · rw [if_neg (asymm hab), if_pos hab] at h1
        exact absurd h1 (by simp)

theorem charListLe_antisymm : ∀ a b, charListLe a b = true → charListLe b a = true → a = b
  | [], [], _, _ => rfl
  | [], _ :: _, _, h2 => by simp [charListLe] at h2
  | _ :: _, [], h1, _ => by simp [charListLe] at h1
  | a :: as, b :: bs, h1, h2 => by
      simp only [charListLe] at h1 h2
      rcases lt_trichotomy a b with hab | hab | hab
      · rw [if_neg (asymm hab), if_pos hab] at h2
        exact absurd h2 (by simp)
      · subst hab
        rw [if_neg (lt_irrefl a), if_neg (lt_irrefl a)] at h1 h2
        rw [charListLe_antisymm as bs h1 h2]
      · rw [if_neg (asymm hab), if_pos hab] at h1
        exact absurd h1 (by simp)

theorem sLe_refl (s : String) : sLe s s := charListLe_refl s.data

theorem sLe_trans {a b c : String} (h1 : sLe a b) (h2 : sLe b c) : sLe a c :=
  charListLe_trans a.data b.data c.data h1 h2

theorem sLe_total (a b : String) : sLe a b ∨ sLe b a := charListLe_total a.data b.data

theorem sLe_antisymm {a b : String} (h1 : sLe a b) (h2 : sLe b a) : a = b :=
  String.ext (charListLe_antisymm a.data b.data h1 h2)

instance : IsTotal String sLe := ⟨sLe_total⟩

instance : IsTrans String sLe := ⟨fun _ _ _ => sLe_trans⟩

instance : IsTotal MarkRow markLe := by
  constructor
  intro a b
  by_cases h : a.exam = b.exam
  · rcases sLe_total a.subject b.subject with hs | hs
    · exact Or.inl (Or.inl ⟨h, hs⟩)
    · exact Or.inr (Or.inl ⟨h.symm, hs⟩)
  · rcases sLe_total a.exam b.exam with he | he
    · exact Or.inl (Or.inr ⟨h, he⟩)
    · exact Or.inr (Or.inr ⟨fun hc => h hc.symm, he⟩)

instance : IsTrans MarkRow markLe := by
  constructor
  intro a b c hab hbc
  rcases hab with ⟨hab1, hab2⟩ | ⟨hab1, hab2⟩ <;>
    rcases hbc with ⟨hbc1, hbc2⟩ | ⟨hbc1, hbc2⟩
  · exact Or.inl ⟨hab1.trans hbc1, sLe_trans hab2 hbc2⟩
  · exact Or.inr ⟨by rw [hab1]; exact hbc1, by rw [hab1]; exact hbc2⟩
  · exact Or.inr ⟨by rw [← hbc1]; exact hab1, by rw [← hbc1]; exact hab2⟩
  · refine Or.inr ⟨?_, sLe_trans hab2 hbc2⟩
    intro hac
    exact hab1 (sLe_antisymm hab2 (by rw [hac]; exact hbc2))

theorem firstSeenAux_props (l : List String) :
    ∀ acc : List String, l.Pairwise sLe → List.Sorted sLt acc →
      (∀ a ∈ acc, ∀ x ∈ l, sLe a x) →
      List.Sorted sLt (firstSeenAux l acc) ∧
        ∀ e, e ∈ firstSeenAux l acc ↔ e ∈ acc ∨ e ∈ l := by
  induction l with
  | nil =>
      intro acc _ hacc _
      refine ⟨hacc, fun e => ?_⟩
      simp [firstSeenAux]
  | cons x xs ih =>
      intro acc hl hacc hbound
      have hxle : ∀ y ∈ xs, sLe x y := (List.pairwise_cons.mp hl).1
      have hxs : xs.Pairwise sLe := (List.pairwise_cons.mp hl).2
      unfold firstSeenAux
      by_cases hmem : x ∈ acc
      · rw [if_pos hmem]
        have hres := ih acc hxs hacc
          (fun a ha y hy => hbound a ha y (List.mem_cons_of_mem _ hy))
        refine ⟨hres.1, fun e => ?_⟩
        rw [hres.2]
        constructor
        · rintro (he | he)
          · exact Or.inl he
          · exact Or.inr (List.mem_cons_of_mem _ he)
        · rintro (he | he)
          · exact Or.inl he
          · rcases List.mem_cons.mp he with he | he
            · subst he; exact Or.inl hmem
            · exact Or.inr he
      · rw [if_neg hmem]
        have hacc2 : List.Sorted sLt (acc ++ [x]) := by
          show List.Pairwise sLt (acc ++ [x])
          rw [List.pairwise_append]
          refine ⟨hacc, List.pairwise_singleton _ _, ?_⟩
          intro a ha y hy
          rw [List.mem_singleton] at hy
          rw [hy]
          refine ⟨hbound a ha x (List.mem_cons_self _ _), ?_⟩
          intro hax
          rw [hax] at ha
          exact hmem ha
        have hbound2 : ∀ a ∈ acc ++ [x], ∀ y ∈ xs, sLe a y := by
          intro a ha y hy
          rcases List.mem_append.mp ha with ha | ha
          · exact hbound a ha y (List.mem_cons_of_mem _ hy)
          · rw [List.mem_singleton] at ha
            subst ha
            exact hxle y hy
        have hres := ih (acc ++ [x]) hxs hacc2 hbound2
        refine ⟨hres.1, fun e => ?_⟩
        rw [hres.2]
        simp only [List.mem_append, List.mem_singleton, List.mem_cons]
        tauto


theorem lookup_cons_self (k v : String) (d : List (String × String)) :
    ((k, v) :: d).lookup k = some v := by
  rw [List.lookup_cons]
  have hb : (k == k) = true := by simp
  rw [hb]

theorem lookup_cons_ne (k pk pv : String) (d : List (String × String)) (h : k ≠ pk) :
    ((pk, pv) :: d).lookup k = d.lookup k := by
  rw [List.lookup_cons]
  have hb : (k == pk) = false := by simp [h]
  rw [hb]

theorem dictInsert_lookup_self (k v : String) (d : List (String × String)) :
    (dictInsert k v d).lookup k = some v := by
  unfold dictInsert
  split_ifs with h
  · induction d with
    | nil => exact Bool.noConfusion h
    | cons p ps ih =>
        obtain ⟨pk, pv⟩ := p
        simp only [List.any_cons, Bool.or_eq_true, decide_eq_true_eq] at h
        by_cases hp : pk = k
        · subst hp
          have hstep : List.map (fun q => if q.1 = pk then (pk, v) else q) ((pk, pv) :: ps)
              = (pk, v) :: List.map (fun q => if q.1 = pk then (pk, v) else q) ps := by
            simp
          rw [hstep]
          exact lookup_cons_self pk v _
        · have hstep : List.map (fun q => if q.1 = k then (k, v) else q) ((pk, pv) :: ps)
              = (pk, pv) :: List.map (fun q => if q.1 = k then (k, v) else q) ps := by
            simp [hp]
          rw [hstep, lookup_cons_ne k pk pv _ (fun hc => hp hc.symm)]
          apply ih
          rcases h with h | h
          · exact absurd h hp
          · exact h
  · induction d with
    | nil => exact lookup_cons_self k v []
    | cons p ps ih =>
        obtain ⟨pk, pv⟩ := p
        simp only [List.any_cons, Bool.or_eq_true, decide_eq_true_eq, not_or] at h
        simp only [List.cons_append]
        rw [lookup_cons_ne k pk pv _ (fun hc => h.1 hc.symm)]
        exact ih (by simpa using h.2)

theorem dictInsert_lookup_other (k v k2 : String) (d : List (String × String))
    (hne : k2 ≠ k) : (dictInsert k v d).lookup k2 = d.lookup k2 := by
  unfold dictInsert
  split_ifs with h
  · clear h
    induction d with
    | nil => rfl
    | cons p ps ih =>
        obtain ⟨pk, pv⟩ := p
        by_cases hp : pk = k
        · subst hp
          have hstep : List.map (fun q => if q.1 = pk then (pk, v) else q) ((pk, pv) :: ps)
              = (pk, v) :: List.map (fun q => if q.1 = pk then (pk, v) else q) ps := by
            simp
          rw [hstep, lookup_cons_ne k2 pk v _ hne, lookup_cons_ne k2 pk pv _ hne]
          exact ih
        · have hstep : List.map (fun q => if q.1 = k then (k, v) else q) ((pk, pv) :: ps)
              = (pk, pv) :: List.map (fun q => if q.1 = k then (k, v) else q) ps := by
            simp [hp]
          rw [hstep]
          by_cases hq : k2 = pk
          · subst hq
            rw [lookup_cons_self, lookup_cons_self]
          · rw [lookup_cons_ne k2 pk pv _ hq, lookup_cons_ne k2 pk pv _ hq]
            exact ih
  · clear h
    induction d with
    | nil =>
        simp only [List.nil_append]
        rw [lookup_cons_ne k2 k v _ hne]
    | cons p ps ih =>
        obtain ⟨pk, pv⟩ := p
        simp only [List.cons_append]
        by_cases hq : k2 = pk
        · subst hq
          rw [lookup_cons_self, lookup_cons_self]
        · rw [lookup_cons_ne k2 pk pv _ hq, lookup_cons_ne k2 pk pv _ hq]
          exact ih

theorem gridRow_lookup (f : String → String) (subs : List String) :
    ∀ (d : List (String × String)) (s : String), subs.Nodup →
      (subs.foldl (fun d sub => dictInsert sub (f sub) d) d).lookup s =
        if s ∈ subs then some (f s) else d.lookup s := by
  induction subs with
  | nil =>
      intro d s _
      simp
  | cons x xs ih =>
      intro d s hnd
      have hx : x ∉ xs := (List.nodup_cons.mp hnd).1
      have hxs : xs.Nodup := (List.nodup_cons.mp hnd).2
      rw [List.foldl_cons]
      rw [ih (dictInsert x (f x) d) s hxs]
      by_cases hs : s ∈ xs
      · rw [if_pos hs, if_pos (List.mem_cons_of_mem _ hs)]
      · rw [if_neg hs]
        by_cases hsx : s = x
        · subst hsx
          rw [if_pos (List.mem_cons_self _ _)]
          exact dictInsert_lookup_self s (f s) d
        · rw [if_neg (by
            intro hc
            rcases List.mem_cons.mp hc with hc | hc
            · exact hsx hc
            · exact hs hc)]
          exact dictInsert_lookup_other x (f x) s d hsx

theorem find?_eq_some_of_unique {α : Type} (p : α → Bool) (l : List α) (m : α)
    (hm : m ∈ l) (hpm : p m = true) (huniq : ∀ x ∈ l, p x = true → x = m) :
    l.find? p = some m := by
  induction l with
  | nil => simp at hm
  | cons a l ih =>
      by_cases hpa : p a = true
      · rw [List.find?_cons_of_pos _ hpa, huniq a (List.mem_cons_self _ _) hpa]
      · rw [List.find?_cons_of_neg _ hpa]
        have hma : m ≠ a := fun hc => hpa (hc ▸ hpm)
        have hm2 : m ∈ l := by
          rcases List.mem_cons.mp hm with h | h
          · exact absurd h hma
          · exact h
        exact ih hm2 (fun x hx hpx => huniq x (List.mem_cons_of_mem _ hx) hpx)

def markKeyDistinct (a b : MarkRow) : Prop :=
  ¬(a.exam = b.exam ∧ a.subject = b.subject)

theorem markKeyDistinct_symm {a b : MarkRow} (h : markKeyDistinct a b) :
    markKeyDistinct b a := fun hk => h ⟨hk.1.symm, hk.2.symm⟩

theorem mark_key_unique {L : List MarkRow} (h : L.Pairwise markKeyDistinct)
    {x m : MarkRow} (hx : x ∈ L) (hm : m ∈ L) (he : x.exam = m.exam)
    (hs : x.subject = m.subject) : x = m := by
  by_cases hxm : x = m
  · exact hxm
  · exact absurd ⟨he, hs⟩
      (List.Pairwise.forall (fun _ _ hr => markKeyDistinct_symm hr) h hx hm hxm)

theorem sorted_sLt_of_sLe_nodup {l : List String} (hs : l.Pairwise sLe)
    (hn : l.Nodup) : List.Sorted sLt l :=
  (hs.and hn).imp (fun h => h)

theorem build_marks_grid_eq (db : DB) (roll : String)
    (hne : db.marks.filter (fun m => m.roll_no = roll) ≠ []) :
    build_marks_grid db roll =
      ("Exam" :: List.insertionSort sLe
          (((List.insertionSort markLe (db.marks.filter (fun m => m.roll_no = roll))).map
            (fun m => m.subject)).dedup),
       (firstSeenAux
          ((List.insertionSort markLe (db.marks.filter (fun m => m.roll_no = roll))).map
            (fun m => m.exam)) []).map
         (gridRowFor (List.insertionSort markLe (db.marks.filter (fun m => m.roll_no = roll)))
           (List.insertionSort sLe
             (((List.insertionSort markLe (db.marks.filter (fun m => m.roll_no = roll))).map
               (fun m => m.subject)).dedup)))) := by
  have hLne : List.insertionSort markLe (db.marks.filter (fun m => m.roll_no = roll)) ≠ [] := by
    intro hnil
    exact hne (List.Perm.eq_nil
      (hnil ▸ (List.perm_insertionSort markLe (db.marks.filter (fun m => m.roll_no = roll))).symm))
  unfold build_marks_grid
  rw [if_neg (fun hE => hLne (List.isEmpty_iff.mp hE))]

/-- The claim-side description of the marks grid: empty for a student with
no marks; otherwise headers are "Exam" followed by the strictly sorted
distinct subjects, one row per distinct exam in strictly sorted (i.e.
alphabetical) order, each cell showing `<grade> (<obtained>/<max>)` for the
student's record of that exam and subject, and the placeholder for a
missing record. -/
def MarksGridOk (db : DB) (roll : String) : Prop :=
  ((db.marks.filter (fun m => m.roll_no = roll)) = [] →
    build_marks_grid db roll = ([], [])) ∧
  ((db.marks.filter (fun m => m.roll_no = roll)) ≠ [] → ∃ subs exams,
    (build_marks_grid db roll).1 = "Exam" :: subs ∧
    List.Sorted sLt subs ∧
    (∀ x, x ∈ subs ↔ ∃ m ∈ db.marks.filter (fun m => m.roll_no = roll), m.subject = x) ∧
    List.Sorted sLt exams ∧
    (∀ x, x ∈ exams ↔ ∃ m ∈ db.marks.filter (fun m => m.roll_no = roll), m.exam = x) ∧
    (build_marks_grid db roll).2.length = exams.length ∧
    (∀ i : Nat, ∀ hi : i < (build_marks_grid db roll).2.length, ∀ hj : i < exams.length,
      ("Exam" ∉ subs →
        ((build_marks_grid db roll).2.get ⟨i, hi⟩).lookup "Exam" =
          some (exams.get ⟨i, hj⟩)) ∧
      (∀ sub ∈ subs,
        (∀ m ∈ db.marks.filter (fun m => m.roll_no = roll),
          m.exam = exams.get ⟨i, hj⟩ → m.subject = sub →
            ((build_marks_grid db roll).2.get ⟨i, hi⟩).lookup sub = some (fmtMark m)) ∧
        ((∀ m ∈ db.marks.filter (fun m => m.roll_no = roll),
            ¬(m.exam = exams.get ⟨i, hj⟩ ∧ m.subject = sub)) →
          ((build_marks_grid db roll).2.get ⟨i, hi⟩).lookup sub = some dashCell))))

/-- C8: under the store invariant that a student's mark records have
pairwise distinct (exam, subject) keys, `build_marks_grid` satisfies the
full grid description `MarksGridOk`. -/
theorem c8_marks_grid (db : DB) (roll : String)
    (hu : (db.marks.filter (fun m => m.roll_no = roll)).Pairwise markKeyDistinct) :
    MarksGridOk db roll := by
  unfold MarksGridOk
  constructor
  · intro hempty
    unfold build_marks_grid
    rw [hempty]
    rfl
  · intro hne
    have hperm := List.perm_insertionSort markLe (db.marks.filter (fun m => m.roll_no = roll))
    have hsortL := List.sorted_insertionSort markLe (db.marks.filter (fun m => m.roll_no = roll))
    have hpairL : (List.insertionSort markLe
        (db.marks.filter (fun m => m.roll_no = roll))).Pairwise markKeyDistinct :=
      (List.Perm.pairwise_iff (fun hr => markKeyDistinct_symm hr) hperm).mpr hu
    have hsubsSorted : List.Sorted sLe (List.insertionSort sLe
        (((List.insertionSort markLe (db.marks.filter (fun m => m.roll_no = roll))).map
          (fun m => m.subject)).dedup)) :=
      List.sorted_insertionSort sLe _
    have hsubsNodup : (List.insertionSort sLe
        (((List.insertionSort markLe (db.marks.filter (fun m => m.roll_no = roll))).map
          (fun m => m.subject)).dedup)).Nodup :=
      (List.perm_insertionSort sLe _).symm.nodup (List.nodup_dedup _)
    have hexamsPW : ((List.insertionSort markLe
        (db.marks.filter (fun m => m.roll_no = roll))).map (fun m => m.exam)).Pairwise sLe := by
      rw [List.pairwise_map]
      refine hsortL.imp ?_
      intro a b hab
      rcases hab with ⟨heq, _⟩ | ⟨_, hle⟩
      · rw [heq]; exact sLe_refl _
      · exact hle
    have hexams := firstSeenAux_props
      ((List.insertionSort markLe (db.marks.filter (fun m => m.roll_no = roll))).map
        (fun m => m.exam)) [] hexamsPW List.Pairwise.nil
      (fun a ha => absurd ha (List.not_mem_nil a))
    rw [build_marks_grid_eq db roll hne]
    refine ⟨_, _, rfl, sorted_sLt_of_sLe_nodup hsubsSorted hsubsNodup, ?_, hexams.1, ?_,
      List.length_map _ _, ?_⟩
    · intro x
      rw [List.mem_insertionSort, List.mem_dedup, List.mem_map]
      constructor
      · rintro ⟨m, hm, hx⟩
        exact ⟨m, hperm.mem_iff.mp hm, hx⟩
      · rintro ⟨m, hm, hx⟩
        exact ⟨m, hperm.mem_iff.mpr hm, hx⟩
    · intro x
      rw [hexams.2 x]
      simp only [List.not_mem_nil, false_or, List.mem_map]
      constructor
      · rintro ⟨m, hm, hx⟩
        exact ⟨m, hperm.mem_iff.mp hm, hx⟩
      · rintro ⟨m, hm, hx⟩
        exact ⟨m, hperm.mem_iff.mpr hm, hx⟩
    · intro i hi hj
      have hget : ((firstSeenAux
            ((List.insertionSort markLe (db.marks.filter (fun m => m.roll_no = roll))).map
              (fun m => m.exam)) []).map
            (gridRowFor (List.insertionSort markLe (db.marks.filter (fun m => m.roll_no = roll)))
              (List.insertionSort sLe
                (((List.insertionSort markLe (db.marks.filter (fun m => m.roll_no = roll))).map
                  (fun m => m.subject)).dedup)))).get ⟨i, hi⟩ =
          gridRowFor (List.insertionSort markLe (db.marks.filter (fun m => m.roll_no = roll)))
            (List.insertionSort sLe
              (((List.insertionSort markLe (db.marks.filter (fun m => m.roll_no = roll))).map
                (fun m => m.subject)).dedup))
            ((firstSeenAux
              ((List.insertionSort markLe (db.marks.filter (fun m => m.roll_no = roll))).map
                (fun m => m.exam)) []).get ⟨i, hj⟩) := by
        rw [List.get_eq_getElem, List.get_eq_getElem, List.getElem_map]
      rw [hget]
      constructor
      · intro hnoEx
        unfold gridRowFor
        rw [gridRow_lookup _ _ _ _ hsubsNodup, if_neg hnoEx]
        exact lookup_cons_self _ _ _
      · intro sub hsub
        constructor
        · intro m hm hme hms
          unfold gridRowFor
          rw [gridRow_lookup _ _ _ _ hsubsNodup, if_pos hsub]
          unfold gridCell
          rw [find?_eq_some_of_unique _ _ m (hperm.mem_iff.mpr hm)
            (by simp [hme, hms])
            (by
              intro x hx hpx
              simp only [decide_eq_true_eq] at hpx
              exact mark_key_unique hpairL hx (hperm.mem_iff.mpr hm)
                (hpx.1.trans hme.symm) (hpx.2.trans hms.symm))]
        · intro hnone
          unfold gridRowFor
          rw [gridRow_lookup _ _ _ _ hsubsNodup, if_pos hsub]
          unfold gridCell
          rw [List.find?_eq_none.mpr (by
            intro x hx
            simp only [decide_eq_true_eq]
            exact hnone x (hperm.mem_iff.mp hx))]

instance markKeyDistinctDec : DecidableRel markKeyDistinct := fun a b => by
  unfold markKeyDistinct
  infer_instance

/-- Store for the C8 witness: three marks for R1 over two exams and two
subjects (one cell missing). -/
def dbC8 : DB :=
  { students := [{ roll_no := "R1", name := "Al", email := none, phone := none,
                   father_name := none, father_phone := none, semester := none }],
    attendance := [],
    marks := [{ roll_no := "R1", exam := "Mid", subject := "Math", max_marks := 100,
                marks_obtained := 90, credits := none, semester := none,
                source_upload_id := some 1 },
              { roll_no := "R1", exam := "Mid", subject := "Phys", max_marks := 50,
                marks_obtained := 20, credits := none, semester := none,
                source_upload_id := some 1 },
              { roll_no := "R1", exam := "End", subject := "Math", max_marks := 100,
                marks_obtained := 40, credits := none, semester := none,
                source_upload_id := some 1 }],
    uploads := [], upload_students_map := [], remarks := [], next_upload_id := 2 }

theorem c8_marks_grid_witness : MarksGridOk dbC8 "R1" :=
  c8_marks_grid dbC8 "R1" (by decide)
